import Mathlib

/-!
Verification of the connection-lifecycle and batch-pipelining core of the
pgx fork (pgxpool/conn.go and the pgx Batch implementation).

Part 1 embeds `pgxpool.Conn` (the pooled-connection handle) and its
`Release` / `Hijack` methods.  Part 2 embeds `pgx.Batch` with `Send`,
`ExecResults`, `QueryResults`, `QueryRowResults`, `Close` and `die`.
-/

set_option autoImplicit false

namespace Pgxpool

/-- The observable state of an underlying `pgx.Conn` that `Release`
inspects: `conn.IsClosed()`, `conn.PgConn().IsBusy()` and
`conn.PgConn().TxStatus()`. -/
structure ConnState where
  isClosed : Bool
  isBusy : Bool
  txStatus : Char
  deriving Repr, DecidableEq

/-- A `puddle.Resource` as seen from conn.go: it carries the underlying
connection state (via `res.Value()`). -/
structure Resource where
  conn : ConnState
  deriving Repr, DecidableEq

/-- The pool environment `Release` consults: `p.isExpired res` (the
maximum-lifetime check) and the optional `p.afterRelease` hook. -/
structure PoolEnv where
  isExpired : Resource → Bool
  afterRelease : Option (ConnState → Bool)

/-- A pooled connection handle (`pgxpool.Conn`): the `res` field is `nil`
(`none`) once the handle has been released or hijacked. -/
structure Conn where
  res : Option Resource
  deriving Repr, DecidableEq

/-- What one call to `Release` or `Hijack` did to the pool: the fate of the
resource and the side effects on pool bookkeeping.  The asynchronous
`afterRelease` goroutine is modelled by its eventual effect. -/
structure ReleaseEffects where
  destroyed : Bool
  releasedToIdle : Bool
  healthCheckTriggers : Nat
  lifetimeDestroyDelta : Nat
  afterReleaseInvoked : Bool
  deriving Repr, DecidableEq

/-- The effects of a call that touches nothing (an already-released handle). -/
def noEffects : ReleaseEffects where
  destroyed := false
  releasedToIdle := false
  healthCheckTriggers := 0
  lifetimeDestroyDelta := 0
  afterReleaseInvoked := false

/-- Effects of `res.Destroy()` followed by `p.triggerHealthCheck()`. -/
def destroyEffects (lifetimeDelta : Nat) (hookRan : Bool) : ReleaseEffects where
  destroyed := true
  releasedToIdle := false
  healthCheckTriggers := 1
  lifetimeDestroyDelta := lifetimeDelta
  afterReleaseInvoked := hookRan

/-- Effects of `res.Release()` (return to the idle set). -/
def idleEffects (hookRan : Bool) : ReleaseEffects where
  destroyed := false
  releasedToIdle := true
  healthCheckTriggers := 0
  lifetimeDestroyDelta := 0
  afterReleaseInvoked := hookRan

/-- The condition `conn.IsClosed() || conn.PgConn().IsBusy() ||
conn.PgConn().TxStatus() != 'I'` guarding the first destroy branch. -/
def unhealthyConn (s : ConnState) : Bool :=
  s.isClosed || s.isBusy || decide (s.txStatus ≠ 'I')

/-- `Conn.Release` from pgxpool/conn.go.  Returns the handle afterwards and
the effects on the pool.  Mirrors the source: nil-check, destroy on
closed/busy/non-idle transaction, destroy on expiry (incrementing the
lifetime-destroy counter), immediate release when no hook is configured,
otherwise the hook decides release-or-destroy. -/
def Conn.Release (c : Conn) (env : PoolEnv) : Conn × ReleaseEffects :=
  match c.res with
  | none => (c, noEffects)
  | some res =>
    if unhealthyConn res.conn then
      ({ res := none }, destroyEffects 0 false)
    else if env.isExpired res then
      ({ res := none }, destroyEffects 1 false)
    else
      match env.afterRelease with
      | none => ({ res := none }, idleEffects false)
      | some hook =>
        if hook res.conn then ({ res := none }, idleEffects true)
        else ({ res := none }, destroyEffects 0 true)

/-- `Conn.Hijack` from pgxpool/conn.go.  `none` models the panic on an
already released or hijacked handle; otherwise the resource is detached
from the pool and the raw connection returned. -/
def Conn.Hijack (c : Conn) : Option (Conn × ConnState) :=
  match c.res with
  | none => none
  | some res => some ({ c with res := none }, res.conn)

end Pgxpool

namespace Pgx

/-- Errors observable through the batch API.  Go `error` values are
modelled as `Option BErr` (with `none` for `nil`). -/
inductive BErr where
  | readFailure
  | pgError (code : Nat)
  | ctxCanceled
  | writeFailure
  | cancelQueryFailure
  | bindFailure
  deriving Repr, DecidableEq

/-- Backend protocol messages as categorised by the batch code:
`ReadyForQuery`, `CommandComplete`, `RowDescription`, an error response,
and everything handled generically (notices, parameter statuses, ...). -/
inductive Msg where
  | readyForQuery
  | commandComplete (tag : String)
  | rowDescription (nfields : Nat)
  | errorResponse (code : Nat)
  | other
  deriving Repr, DecidableEq

/-- One extended-query-protocol step appended to the write buffer by
`Batch.Send` (the byte-level serializers appendQuery/appendParse/... are
out-of-scope collaborators; we record the step they encode). -/
inductive WireStep where
  | query (sql : String)
  | parse (name : String) (sql : String) (parameterOids : List Nat)
  | bind (portal : String) (psName : String) (parameterOids : List Nat)
      (arguments : List Nat) (resultFormatCodes : List Int)
  | describe (objType : Char) (name : String)
  | execute (portal : String) (maxRows : Nat)
  | sync
  deriving Repr, DecidableEq

/-- A queued batch item (src/unnamed/part_000, `batchItem`).  Argument
values are abstracted to `Nat`. -/
structure batchItem where
  query : String
  arguments : List Nat
  parameterOids : List Nat
  resultFormatCodes : List Int
  deriving Repr, DecidableEq

/-- An entry of `conn.preparedStatements`: the cached name and parameter
OIDs of a statement already prepared on this connection. -/
structure PreparedStatement where
  name : String
  parameterOids : List Nat
  deriving Repr, DecidableEq

/-- The connection state the batch code manipulates: the incoming message
stream (`rxMsg` pops its head; an empty stream is a read failure), the
`pendingReadyForQueryCount`, whether `conn.die` has been called, the list
of transmissions written so far, the prepared-statement cache, and how
many times `connPool.Release(conn)` has run. -/
structure BConn where
  msgs : List Msg
  pendingReadyForQueryCount : Int
  dead : Bool
  written : List (List WireStep)
  preparedStatements : List (String × PreparedStatement)
  releaseCount : Nat
  deriving Repr, DecidableEq

/-- The `Batch` struct: queued items, the read cursor `resultsRead`, the
`sent` flag, the sticky error `err`, the context stored by `Send`
(modelled by what `ctx.Err()` returns: `none` iff the context is not
done), and whether a `connPool` is attached. -/
structure Batch where
  items : List batchItem
  resultsRead : Nat
  sent : Bool
  err : Option BErr
  ctxErr : Option BErr
  hasConnPool : Bool
  deriving Repr, DecidableEq

/-- `processContextFreeMsg` (collaborator on the conn, modelled from the
spec: consumes errors/notices/status updates generically; a
`ReadyForQuery` decrements the outstanding idle-marker count, an error
response is returned as an error). -/
def processContextFreeMsg (m : Msg) (pending : Int) : Option BErr × Int :=
  match m with
  | .readyForQuery => (none, pending - 1)
  | .errorResponse code => (some (.pgError code), pending)
  | _ => (none, pending)

/-- `conn.die(err)` at the connection level: marks the connection dead. -/
def connDie (c : BConn) : BConn := { c with dead := true }

/-- `Batch.die`: the sticky-error setter.  First error wins; marks the
underlying connection dead and releases it to the pool when one is
attached. -/
def Batch.die (b : Batch) (c : BConn) (e : Option BErr) : Batch × BConn :=
  if b.err.isSome then (b, c)
  else
    let b := { b with err := e }
    let c := connDie c
    let c := if b.hasConnPool then { c with releaseCount := c.releaseCount + 1 } else c
    (b, c)

/-- The receive loop of `ExecResults`: `rxMsg` until a `CommandComplete`,
processing other messages context-free.  Returns the command tag or the
first error, together with the remaining stream and the updated pending
ReadyForQuery count. -/
def execLoop : List Msg → Int → Except BErr String × List Msg × Int
  | [], pending => (.error .readFailure, [], pending)
  | m :: rest, pending =>
    match m with
    | .commandComplete tag => (.ok tag, rest, pending)
    | .readyForQuery => execLoop rest (pending - 1)
    | .errorResponse code => (.error (.pgError code), rest, pending)
    | _ => execLoop rest pending

/-- The receive loop of `Send` after the write: `rxMsg` until a
`ReadyForQuery` is observed (returned without decrementing the pending
count), processing other messages context-free. -/
def sendRxLoop : List Msg → Int → Option BErr × List Msg × Int
  | [], pending => (some .readFailure, [], pending)
  | m :: rest, pending =>
    match m with
    | .readyForQuery => (none, rest, pending)
    | .errorResponse code => (some (.pgError code), rest, pending)
    | _ => sendRxLoop rest pending

/-- `readUntilRowDescription` (collaborator on the conn, modelled from the
spec: reads through to a row-description message, handling other messages
generically). -/
def rowDescLoop : List Msg → Int → Except BErr Nat × List Msg × Int
  | [], pending => (.error .readFailure, [], pending)
  | m :: rest, pending =>
    match m with
    | .rowDescription n => (.ok n, rest, pending)
    | .readyForQuery => rowDescLoop rest (pending - 1)
    | .errorResponse code => (.error (.pgError code), rest, pending)
    | _ => rowDescLoop rest pending

/-- `ensureConnectionReadyForQuery` (collaborator on the conn, modelled
from the spec: consumes messages until no ReadyForQuery acknowledgement is
outstanding, i.e. the pending count reaches zero). -/
def ensureReadyLoop (msgs : List Msg) (pending : Int) : Option BErr × List Msg × Int :=
  if pending ≤ 0 then (none, msgs, pending)
  else
    match msgs with
    | [] => (some .readFailure, [], pending)
    | m :: rest =>
      match processContextFreeMsg m pending with
      | (some e, p) => (some e, rest, p)
      | (none, p) => ensureReadyLoop rest p

/-- The per-item protocol steps `Send` appends inside its loop: Parse is
skipped (and the cached name and parameter OIDs reused) exactly when the
statement text is in `conn.preparedStatements`; then Bind, Describe of the
unnamed portal, and Execute with `maxRows` 0. -/
def itemSteps (cache : List (String × PreparedStatement)) (bi : batchItem) : List WireStep :=
  match cache.lookup bi.query with
  | some ps =>
    [.bind "" ps.name ps.parameterOids bi.arguments bi.resultFormatCodes,
     .describe 'P' "", .execute "" 0]
  | none =>
    [.parse "" bi.query bi.parameterOids,
     .bind "" "" bi.parameterOids bi.arguments bi.resultFormatCodes,
     .describe 'P' "", .execute "" 0]

/-- Environment of one `Send` call: the outcome of
`waitForPreviousCancelQuery`, the outcome of the socket write (`none` is
success, otherwise whether `fatalWriteErr` classifies it fatal plus the
error), the statements whose argument encoding makes `appendBind` fail,
and `txOptions.beginSQL()`. -/
structure SendEnv where
  cancelQueryErr : Option BErr
  writeErr : Option (Bool × BErr)
  bindFailures : List String
  beginSQL : String
  deriving Repr, DecidableEq

/-- The item loop of `Send`, accumulating the write buffer; `appendBind`
failure aborts and is returned to the caller. -/
def appendItems (bindFailures : List String) (cache : List (String × PreparedStatement)) :
    List batchItem → List WireStep → Except BErr (List WireStep)
  | [], buf => .ok buf
  | bi :: rest, buf =>
    if bindFailures.contains bi.query then .error .bindFailure
    else appendItems bindFailures cache rest (buf ++ itemSteps cache bi)

/-- The whole transmission `Send` builds: begin SQL, the per-item steps,
one Sync, one literal "commit" statement. -/
def buildBuf (env : SendEnv) (cache : List (String × PreparedStatement))
    (items : List batchItem) : Except BErr (List WireStep) :=
  match appendItems env.bindFailures cache items [WireStep.query env.beginSQL] with
  | .error e => .error e
  | .ok buf => .ok (buf ++ [.sync, .query "commit"])

/-- The transmission of a successful `Send` as the specification words
it: one begin-transaction statement, then the per-item steps in queue
order, then exactly one Sync and the literal statement "commit".  Stated
with `map`/`join` over the items, independently of the
accumulator-passing loop in `Send`, so the two can be compared. -/
def specTransmission (cache : List (String × PreparedStatement)) (beginSQL : String)
    (items : List batchItem) : List WireStep :=
  WireStep.query beginSQL ::
    ((items.map (itemSteps cache)).flatten ++ [WireStep.sync, WireStep.query "commit"])

/-- `Batch.Send`: sticky-error check, store the context, wait for a
previous cancel query, ensure the connection is ready for query,
`initContext` (modelled from the spec: cancellation is detected
cooperatively before blocking network operations, so a context that is
already done fails here), build the buffer, write it (a fatal write error
kills the connection), record two more outstanding ReadyForQuery
acknowledgements, set `sent`, then consume messages until a ReadyForQuery. -/
def Batch.Send (b : Batch) (c : BConn) (ctx : Option BErr) (env : SendEnv) :
    Option BErr × Batch × BConn :=
  match b.err with
  | some e => (some e, b, c)
  | none =>
    let b := { b with ctxErr := ctx }
    match env.cancelQueryErr with
    | some e => (some e, b, c)
    | none =>
      match ensureReadyLoop c.msgs c.pendingReadyForQueryCount with
      | (some e, msgs, p) =>
        (some e, b, { c with msgs := msgs, pendingReadyForQueryCount := p })
      | (none, msgs, p) =>
        let c := { c with msgs := msgs, pendingReadyForQueryCount := p }
        match ctx with
        | some e => (some e, b, c)
        | none =>
          match buildBuf env c.preparedStatements b.items with
          | .error e => (some e, b, c)
          | .ok buf =>
            match env.writeErr with
            | some fe =>
              let c := if fe.1 then connDie c else c
              (some fe.2, b, c)
            | none =>
              let c := { c with written := c.written ++ [buf] }
              let c := { c with pendingReadyForQueryCount := c.pendingReadyForQueryCount + 2 }
              let b := { b with sent := true }
              match sendRxLoop c.msgs c.pendingReadyForQueryCount with
              | (r, msgs, p) =>
                (r, b, { c with msgs := msgs, pendingReadyForQueryCount := p })

/-- `Batch.ExecResults`: sticky-error check, fail fast on a done context
(poisoning the batch via `die`), increment the read cursor, then read to
the next CommandComplete. -/
def Batch.ExecResults (b : Batch) (c : BConn) : Except BErr String × Batch × BConn :=
  match b.err with
  | some e => (.error e, b, c)
  | none =>
    match b.ctxErr with
    | some e =>
      match b.die c (some e) with
      | (b, c) => (.error e, b, c)
    | none =>
      let b := { b with resultsRead := b.resultsRead + 1 }
      match execLoop c.msgs c.pendingReadyForQueryCount with
      | (r, msgs, p) => (r, b, { c with msgs := msgs, pendingReadyForQueryCount := p })

/-- `Batch.QueryResults`: as `ExecResults`, but reads through to a
RowDescription (whose field count stands in for the `Rows` value); on a
read failure it calls `b.die(b.ctx.Err())` — with the context error, which
is `nil` on this path — and returns the read error. -/
def Batch.QueryResults (b : Batch) (c : BConn) : Option Nat × Option BErr × Batch × BConn :=
  match b.err with
  | some e => (none, some e, b, c)
  | none =>
    match b.ctxErr with
    | some e =>
      match b.die c (some e) with
      | (b, c) => (none, some e, b, c)
    | none =>
      let b := { b with resultsRead := b.resultsRead + 1 }
      match rowDescLoop c.msgs c.pendingReadyForQueryCount with
      | (.error e, msgs, p) =>
        let c := { c with msgs := msgs, pendingReadyForQueryCount := p }
        match b.die c b.ctxErr with
        | (b, c) => (none, some e, b, c)
      | (.ok n, msgs, p) =>
        (some n, none, b, { c with msgs := msgs, pendingReadyForQueryCount := p })

/-- `Batch.QueryRowResults`: `rows, _ := b.QueryResults()` — the error is
discarded and the rows pointer (nil on every failure path) is returned as
a row. -/
def Batch.QueryRowResults (b : Batch) (c : BConn) : Option Nat × Batch × BConn :=
  match b.QueryResults c with
  | (rows, _, b, c) => (rows, b, c)

/-- `conn.termContext(err)` run by Close's deferred function (modelled
from the spec: when the batch's context is done the operation is
terminated with the context's error and the connection dies; otherwise the
operation's error passes through). -/
def termContext (ctxErr : Option BErr) (e : Option BErr) (c : BConn) : Option BErr × BConn :=
  match ctxErr with
  | some ce => (some ce, connDie c)
  | none => (e, c)

/-- The result-draining loop of `Close`: `for i := b.resultsRead; i <
len(b.items); i++ { ExecResults }`.  The loop variable and `resultsRead`
move in lockstep, so the iteration count is `len(items) - resultsRead` at
entry, used as fuel. -/
def closeLoop : Nat → Batch → BConn → Option BErr × Batch × BConn
  | 0, b, c => (none, b, c)
  | n + 1, b, c =>
    match b.ExecResults c with
    | (.error e, b, c) => (some e, b, c)
    | (.ok _, b, c) => closeLoop n b c

/-- `Batch.Close`: the sticky error, when present, is returned before the
deferred release is installed; otherwise the remaining items are drained,
the connection is verified ready for query, and the deferred function runs
`termContext` and releases the connection to its pool on every one of
those exit paths. -/
def Batch.Close (b : Batch) (c : BConn) : Option BErr × Batch × BConn :=
  match b.err with
  | some e => (some e, b, c)
  | none =>
    let step :=
      match closeLoop (b.items.length - b.resultsRead) b c with
      | (some e, b, c) => (some e, b, c)
      | (none, b, c) =>
        match ensureReadyLoop c.msgs c.pendingReadyForQueryCount with
        | (r, msgs, p) => (r, b, { c with msgs := msgs, pendingReadyForQueryCount := p })
    match step with
    | (r, b, c) =>
      match termContext b.ctxErr r c with
      | (r, c) =>
        let c := if b.hasConnPool then { c with releaseCount := c.releaseCount + 1 } else c
        (r, b, c)

end Pgx

section PoolTheorems

open Pgxpool

/-- The handle coming out of `Release` always has its resource reference
cleared (it was either already `nil` or is set to `nil` first thing). -/
theorem release_res_none (c : Conn) (env : PoolEnv) : (c.Release env).1.res = none := by
  obtain ⟨r⟩ := c
  rcases r with _ | res
  · rfl
  · simp only [Conn.Release]
    split
    · rfl
    · split
      · rfl
      · split
        · rfl
        · split <;> rfl

/-- A handle whose resource reference is cleared is the cleared handle. -/
theorem conn_res_none_eq (c : Conn) (h : c.res = none) : c = ⟨none⟩ := by
  obtain ⟨r⟩ := c
  simp only at h
  subst h
  rfl

/-- C1: `Release` on a connection that is closed, busy, or in a non-idle
transaction destroys the resource (never returning it to the idle set) and
triggers the health check once; conversely, whenever `Release` returns a
connection to the idle set, that connection is not closed, not busy, and
has idle transaction status. -/
theorem C1_release_unhealthy_destroyed (c : Conn) (env : PoolEnv) :
    (∀ res, c.res = some res →
      (res.conn.isClosed = true ∨ res.conn.isBusy = true ∨ res.conn.txStatus ≠ 'I') →
      (c.Release env).2.destroyed = true ∧
      (c.Release env).2.releasedToIdle = false ∧
      (c.Release env).2.healthCheckTriggers = 1) ∧
    ((c.Release env).2.releasedToIdle = true →
      ∃ res, c.res = some res ∧ res.conn.isClosed = false ∧
        res.conn.isBusy = false ∧ res.conn.txStatus = 'I') := by
  obtain ⟨r⟩ := c
  constructor
  · rintro res hres hbad
    simp only at hres
    subst hres
    have hcond : unhealthyConn res.conn = true := by
      rcases hbad with h | h | h <;> simp [unhealthyConn, h]
    simp [Conn.Release, hcond, destroyEffects]
  · intro hrel
    rcases r with _ | res
    · simp [Conn.Release, noEffects] at hrel
    · refine ⟨res, rfl, ?_⟩
      by_cases hcond : unhealthyConn res.conn = true
      · simp [Conn.Release, hcond, destroyEffects] at hrel
      · simp only [unhealthyConn, Bool.or_eq_true, decide_eq_true_eq, not_or,
          Bool.not_eq_true] at hcond
        obtain ⟨⟨h1, h2⟩, h3⟩ := hcond
        exact ⟨h1, h2, not_not.mp h3⟩

/-- C1 witness: a closed connection is destroyed with one health-check
trigger. -/
theorem C1_witness :
    (Conn.Release ⟨some ⟨⟨true, false, 'I'⟩⟩⟩ ⟨fun _ => false, none⟩).2.destroyed = true ∧
    (Conn.Release ⟨some ⟨⟨true, false, 'I'⟩⟩⟩ ⟨fun _ => false, none⟩).2.releasedToIdle = false ∧
    (Conn.Release ⟨some ⟨⟨true, false, 'I'⟩⟩⟩ ⟨fun _ => false, none⟩).2.healthCheckTriggers = 1 :=
  (C1_release_unhealthy_destroyed ⟨some ⟨⟨true, false, 'I'⟩⟩⟩ ⟨fun _ => false, none⟩).1
    ⟨⟨true, false, 'I'⟩⟩ rfl (Or.inl rfl)

/-- C2: `Release` on a healthy handle whose resource has exceeded its
maximum lifetime increments the lifetime-destroy counter by exactly 1,
destroys the resource, triggers the health check, does not return it to
the idle set, and never invokes the post-release hook. -/
theorem C2_release_expired (c : Conn) (env : PoolEnv) (res : Resource)
    (hres : c.res = some res)
    (hclosed : res.conn.isClosed = false) (hbusy : res.conn.isBusy = false)
    (htx : res.conn.txStatus = 'I') (hexp : env.isExpired res = true) :
    (c.Release env).2.lifetimeDestroyDelta = 1 ∧
    (c.Release env).2.destroyed = true ∧
    (c.Release env).2.healthCheckTriggers = 1 ∧
    (c.Release env).2.releasedToIdle = false ∧
    (c.Release env).2.afterReleaseInvoked = false := by
  obtain ⟨r⟩ := c
  simp only at hres
  subst hres
  simp [Conn.Release, unhealthyConn, hclosed, hbusy, htx, hexp, destroyEffects]

/-- C2 witness: an expired but healthy connection at a concrete input. -/
theorem C2_witness :
    (Conn.Release ⟨some ⟨⟨false, false, 'I'⟩⟩⟩ ⟨fun _ => true, none⟩).2.lifetimeDestroyDelta = 1 ∧
    (Conn.Release ⟨some ⟨⟨false, false, 'I'⟩⟩⟩ ⟨fun _ => true, none⟩).2.destroyed = true ∧
    (Conn.Release ⟨some ⟨⟨false, false, 'I'⟩⟩⟩ ⟨fun _ => true, none⟩).2.healthCheckTriggers = 1 ∧
    (Conn.Release ⟨some ⟨⟨false, false, 'I'⟩⟩⟩ ⟨fun _ => true, none⟩).2.releasedToIdle = false ∧
    (Conn.Release ⟨some ⟨⟨false, false, 'I'⟩⟩⟩ ⟨fun _ => true, none⟩).2.afterReleaseInvoked = false :=
  C2_release_expired ⟨some ⟨⟨false, false, 'I'⟩⟩⟩ ⟨fun _ => true, none⟩
    ⟨⟨false, false, 'I'⟩⟩ rfl rfl rfl rfl rfl

/-- C3: the transition out of the Acquired state happens at most once: a
`Release` after a `Release` is a no-op with no effects (so two Releases
equal one), a `Hijack` after a `Release` panics, and after a `Hijack` a
further `Release` is a no-op and a further `Hijack` panics. -/
theorem C3_release_hijack_once (c : Conn) (env env' : PoolEnv) :
    Conn.Release (c.Release env).1 env' = ((c.Release env).1, noEffects) ∧
    Conn.Hijack (c.Release env).1 = none ∧
    (∀ c' s, c.Hijack = some (c', s) →
      Conn.Release c' env' = (c', noEffects) ∧ Conn.Hijack c' = none) := by
  have h1 : (c.Release env).1 = ⟨none⟩ := conn_res_none_eq _ (release_res_none c env)
  refine ⟨?_, ?_, ?_⟩
  · rw [h1]; rfl
  · rw [h1]; rfl
  · rintro c' s hh
    obtain ⟨r⟩ := c
    rcases r with _ | res
    · simp [Conn.Hijack] at hh
    · simp only [Conn.Hijack] at hh
      injection hh with h
      injection h with h2 h3
      subst h2
      exact ⟨rfl, rfl⟩

/-- C3 witness: after hijacking a concrete handle, Release is a no-op and
a second Hijack panics. -/
theorem C3_witness :
    Conn.Release ⟨none⟩ ⟨fun _ => false, none⟩ = (⟨none⟩, noEffects) ∧
    Conn.Hijack (⟨none⟩ : Conn) = none :=
  (C3_release_hijack_once ⟨some ⟨⟨false, false, 'I'⟩⟩⟩ ⟨fun _ => false, none⟩
    ⟨fun _ => false, none⟩).2.2 ⟨none⟩ ⟨false, false, 'I'⟩ rfl

end PoolTheorems

section BatchTheorems

open Pgx

/-- `QueryResults` returns a nil rows pointer exactly on its failure
paths. -/
theorem queryResults_rows_none (b : Batch) (c : BConn) (e : BErr)
    (h : (b.QueryResults c).2.1 = some e) : (b.QueryResults c).1 = none := by
  unfold Batch.QueryResults at *
  rcases hb : b.err with _ | e'
  · rcases hctx : b.ctxErr with _ | e'
    · simp only [hb, hctx] at h ⊢
      rcases hrow : rowDescLoop c.msgs c.pendingReadyForQueryCount with ⟨r, msgs, p⟩
      rcases r with e'' | n
      · simp [hrow]
      · simp [hrow] at h
    · simp [hb, hctx]
  · simp [hb]

/-- C10: whenever the underlying `QueryResults` call fails — sticky error,
context already done, or a read failure — `QueryRowResults` returns a nil
row pointer and discards the error: its result carries no error value, and
the batch/connection state is exactly the one `QueryResults` produced. -/
theorem C10_queryRowResults_discards_error (b : Batch) (c : BConn) (e : BErr)
    (h : (b.QueryResults c).2.1 = some e) :
    (b.QueryRowResults c).1 = none ∧
    (b.QueryRowResults c).2 = (b.QueryResults c).2.2 := by
  have hrows := queryResults_rows_none b c e h
  constructor
  · show (b.QueryResults c).1 = none
    exact hrows
  · rfl

/-- C10 witness: a batch with a sticky error yields a nil row and the
unchanged state. -/
theorem C10_witness :
    (Batch.QueryRowResults ⟨[], 0, true, some .readFailure, none, false⟩
      ⟨[], 0, false, [], [], 0⟩).1 = none ∧
    (Batch.QueryRowResults ⟨[], 0, true, some .readFailure, none, false⟩
      ⟨[], 0, false, [], [], 0⟩).2 =
      (Batch.QueryResults ⟨[], 0, true, some .readFailure, none, false⟩
        ⟨[], 0, false, [], [], 0⟩).2.2 :=
  C10_queryRowResults_discards_error ⟨[], 0, true, some .readFailure, none, false⟩
    ⟨[], 0, false, [], [], 0⟩ .readFailure rfl

/-- C8 corrected: `die` is first-error-wins (a second call is a no-op),
marks the underlying connection dead and releases it to the pool when one
is attached — but a protocol-level read error during `ExecResults` is
returned to the caller without setting the sticky error, so the batch is
not poisoned by it. -/
theorem C8_die_first_error_wins (b : Batch) (c : BConn) (e : Option BErr)
    (herr : b.err = none) :
    (b.die c e).1.err = e ∧
    (b.die c e).2.dead = true ∧
    (b.die c e).2.releaseCount = c.releaseCount + (if b.hasConnPool then 1 else 0) ∧
    (∀ (b' : Batch) (c' : BConn) (e' : Option BErr), b'.err.isSome →
      Batch.die b' c' e' = (b', c')) ∧
    (b.ctxErr = none → c.msgs = [] →
      (b.ExecResults c).1 = .error .readFailure ∧ (b.ExecResults c).2.1.err = none) := by
  refine ⟨?_, ?_, ?_, ?_, ?_⟩
  · simp [Batch.die, herr]
  · by_cases hp : b.hasConnPool <;> simp [Batch.die, herr, connDie, hp]
  · by_cases hp : b.hasConnPool <;> simp [Batch.die, herr, connDie, hp]
  · intro b' c' e' hsome
    simp [Batch.die, hsome]
  · intro hctx hmsgs
    simp [Batch.ExecResults, herr, hctx, hmsgs, execLoop]

/-- C8 counterexample: a read failure in `ExecResults` (empty message
stream) is returned to the caller, yet the sticky error stays `nil`, so
the claim that every protocol-level read error results in a non-nil sticky
error is false. -/
theorem C8_counterexample :
    (Batch.ExecResults ⟨[], 0, true, none, none, true⟩ ⟨[], 0, false, [], [], 0⟩).1 =
      .error .readFailure ∧
    (Batch.ExecResults ⟨[], 0, true, none, none, true⟩ ⟨[], 0, false, [], [], 0⟩).2.1.err =
      none :=
  ⟨rfl, rfl⟩

/-- C8 witness: the die facts at a concrete input. -/
theorem C8_witness :
    (Batch.die ⟨[], 0, true, none, none, true⟩ ⟨[], 0, false, [], [], 0⟩
      (some .ctxCanceled)).1.err = some .ctxCanceled ∧
    (Batch.die ⟨[], 0, true, none, none, true⟩ ⟨[], 0, false, [], [], 0⟩
      (some .ctxCanceled)).2.dead = true ∧
    (Batch.die ⟨[], 0, true, none, none, true⟩ ⟨[], 0, false, [], [], 0⟩
      (some .ctxCanceled)).2.releaseCount = 0 + (if true then 1 else 0) ∧
    (∀ (b' : Batch) (c' : BConn) (e' : Option BErr), b'.err.isSome →
      Batch.die b' c' e' = (b', c')) ∧
    ((none : Option BErr) = none → ([] : List Msg) = [] →
      (Batch.ExecResults ⟨[], 0, true, none, none, true⟩ ⟨[], 0, false, [], [], 0⟩).1 =
        .error .readFailure ∧
      (Batch.ExecResults ⟨[], 0, true, none, none, true⟩ ⟨[], 0, false, [], [], 0⟩).2.1.err =
        none) :=
  C8_die_first_error_wins ⟨[], 0, true, none, none, true⟩ ⟨[], 0, false, [], [], 0⟩
    (some .ctxCanceled) rfl

/-- C5 counterexample: with an empty response stream the post-write
receive loop fails, `Send` returns that error, and yet the batch HAS been
marked as sent — refuting the claim that the batch is not marked as sent
when consuming fails before a ReadyForQuery. -/
theorem C5_counterexample :
    (Batch.Send ⟨[], 0, false, none, none, false⟩ ⟨[], 0, false, [], [], 0⟩ none
      ⟨none, none, [], "begin"⟩).1 = some .readFailure ∧
    (Batch.Send ⟨[], 0, false, none, none, false⟩ ⟨[], 0, false, [], [], 0⟩ none
      ⟨none, none, [], "begin"⟩).2.1.sent = true :=
  ⟨rfl, rfl⟩

/-- C7 counterexample: when a sticky error already exists, `Close` returns
it before installing the deferred release, so the connection is NOT
released on that exit path (release count stays 0 despite a pool being
attached). -/
theorem C7_counterexample :
    (Batch.Close ⟨[], 0, true, some .readFailure, none, true⟩
      ⟨[], 0, false, [], [], 0⟩).1 = some .readFailure ∧
    (Batch.Close ⟨[], 0, true, some .readFailure, none, true⟩
      ⟨[], 0, false, [], [], 0⟩).2.2.releaseCount = 0 :=
  ⟨rfl, rfl⟩

/-- C9 counterexample: a batch with one queued item whose single result
has already been read; the wire still holds the Sync acknowledgement, the
commit completion and its acknowledgement.  The second (out-of-range)
`ExecResults` call does not fail: it returns the commit's command tag. -/
theorem C9_counterexample :
    (Batch.ExecResults ⟨[⟨"q", [], [], []⟩], 1, true, none, none, true⟩
      ⟨[Msg.readyForQuery, Msg.commandComplete "COMMIT", Msg.readyForQuery], 2,
        false, [], [], 0⟩).1 = .ok "COMMIT" :=
  rfl

/-- The item loop of `Send` appends the per-item steps in queue order. -/
theorem appendItems_ok (bindFailures : List String) (cache : List (String × PreparedStatement)) :
    ∀ (items : List batchItem) (acc buf : List WireStep),
      appendItems bindFailures cache items acc = .ok buf →
      buf = acc ++ (items.map (itemSteps cache)).flatten := by
  intro items
  induction items with
  | nil =>
    intro acc buf h
    simp only [appendItems, Except.ok.injEq] at h
    subst h
    simp
  | cons bi rest ih =>
    intro acc buf h
    simp only [appendItems] at h
    split at h
    · simp at h
    · have h2 := ih _ _ h
      subst h2
      simp [List.append_assoc]

/-- A successfully built `Send` buffer is exactly the transmission the
spec describes. -/
theorem buildBuf_ok (env : SendEnv) (cache : List (String × PreparedStatement))
    (items : List batchItem) (buf : List WireStep)
    (h : buildBuf env cache items = .ok buf) :
    buf = specTransmission cache env.beginSQL items := by
  unfold buildBuf at h
  rcases happ : appendItems env.bindFailures cache items [WireStep.query env.beginSQL] with e | buf0
  · rw [happ] at h
    simp at h
  · rw [happ] at h
    simp only [Except.ok.injEq] at h
    subst h
    have h0 := appendItems_ok env.bindFailures cache items _ _ happ
    subst h0
    simp [specTransmission]

/-- C4: every successful `Send` writes exactly one transmission: a
begin-transaction statement, then for each queued item in order a Parse
(skipped, the cached statement name and parameter OIDs being reused,
exactly when the statement text is in the prepared-statement cache), a
Bind with the item's arguments and result formats, a Describe, and an
Execute with row limit 0; then one Sync and the literal "commit". -/
theorem C4_send_transmission (b : Batch) (c : BConn) (ctx : Option BErr) (env : SendEnv)
    (hok : (b.Send c ctx env).1 = none) :
    (b.Send c ctx env).2.2.written =
      c.written ++ [specTransmission c.preparedStatements env.beginSQL b.items] ∧
    (∀ bi ps, c.preparedStatements.lookup bi.query = some ps →
      itemSteps c.preparedStatements bi =
        [WireStep.bind "" ps.name ps.parameterOids bi.arguments bi.resultFormatCodes,
         WireStep.describe 'P' "", WireStep.execute "" 0]) ∧
    (∀ bi, c.preparedStatements.lookup bi.query = none →
      itemSteps c.preparedStatements bi =
        [WireStep.parse "" bi.query bi.parameterOids,
         WireStep.bind "" "" bi.parameterOids bi.arguments bi.resultFormatCodes,
         WireStep.describe 'P' "", WireStep.execute "" 0]) := by
  refine ⟨?_, ?_, ?_⟩
  · unfold Batch.Send at hok ⊢
    rcases hberr : b.err with _ | e
    swap
    · simp [hberr] at hok
    simp only [hberr] at hok ⊢
    rcases hcq : env.cancelQueryErr with _ | e
    swap
    · simp [hcq] at hok
    simp only [hcq] at hok ⊢
    rcases hens : ensureReadyLoop c.msgs c.pendingReadyForQueryCount with ⟨r1, msgs1, p1⟩
    simp only [hens] at hok ⊢
    rcases r1 with _ | e
    swap
    · simp at hok
    simp only at hok ⊢
    rcases hctx : ctx with _ | e
    swap
    · simp [hctx] at hok
    simp only [hctx] at hok ⊢
    rcases hbuf : buildBuf env c.preparedStatements b.items with e | buf
    · simp [hbuf] at hok
    simp only [hbuf] at hok ⊢
    rcases hw : env.writeErr with _ | fe
    swap
    · simp [hw] at hok
    simp only [hw] at hok ⊢
    have hspec := buildBuf_ok env c.preparedStatements b.items buf hbuf
    subst hspec
    rfl
  · intro bi ps h
    simp [itemSteps, h]
  · intro bi h
    simp [itemSteps, h]

/-- C4 witness: a concrete one-item batch sends the expected transmission. -/
theorem C4_witness :
    (Batch.Send ⟨[⟨"q1", [5], [23], [1]⟩], 0, false, none, none, false⟩
      ⟨[Msg.readyForQuery], 0, false, [], [], 0⟩ none ⟨none, none, [], "begin"⟩).2.2.written =
      [] ++ [specTransmission [] "begin" [⟨"q1", [5], [23], [1]⟩]] :=
  (C4_send_transmission ⟨[⟨"q1", [5], [23], [1]⟩], 0, false, none, none, false⟩
    ⟨[Msg.readyForQuery], 0, false, [], [], 0⟩ none ⟨none, none, [], "begin"⟩ rfl).1

/-- C5 corrected: after a successful write, `Send` records exactly two
additional outstanding ReadyForQuery acknowledgements (the receive loop
runs with the pending count raised by 2), consumes response messages until
a ReadyForQuery is observed and returns that loop's outcome — but the
batch is marked as sent immediately after the write, BEFORE the receive
loop, so it stays marked sent even when consuming fails. -/
theorem C5_send_marks_sent (b : Batch) (c : BConn) (env : SendEnv) (buf : List WireStep)
    (hberr : b.err = none) (hcq : env.cancelQueryErr = none)
    (hpend : c.pendingReadyForQueryCount = 0)
    (hbuf : buildBuf env c.preparedStatements b.items = .ok buf)
    (hw : env.writeErr = none) :
    (b.Send c none env).1 = (sendRxLoop c.msgs 2).1 ∧
    (b.Send c none env).2.1.sent = true ∧
    (b.Send c none env).2.2.pendingReadyForQueryCount = (sendRxLoop c.msgs 2).2.2 ∧
    (b.Send c none env).2.2.msgs = (sendRxLoop c.msgs 2).2.1 ∧
    (b.Send c none env).2.2.written = c.written ++ [buf] := by
  have hens0 : ensureReadyLoop c.msgs 0 = (none, c.msgs, 0) := by
    rw [ensureReadyLoop.eq_def]
    simp
  rcases hrx : sendRxLoop c.msgs 2 with ⟨r, m2, p2⟩
  simp [Batch.Send, hberr, hcq, hpend, hbuf, hw, hens0, hrx]

/-- C5 witness: a concrete send whose response stream holds one
ReadyForQuery. -/
theorem C5_witness :
    (Batch.Send ⟨[], 0, false, none, none, false⟩ ⟨[Msg.readyForQuery], 0, false, [], [], 0⟩
      none ⟨none, none, [], "begin"⟩).2.1.sent = true :=
  (C5_send_marks_sent ⟨[], 0, false, none, none, false⟩ ⟨[Msg.readyForQuery], 0, false, [], [], 0⟩
    ⟨none, none, [], "begin"⟩ [WireStep.query "begin", WireStep.sync, WireStep.query "commit"]
    rfl rfl rfl rfl rfl).2.1

/-- The drain loop of `Close` consumes one CommandComplete per remaining
item, advancing the read cursor and leaving the pending count untouched. -/
theorem closeLoop_commandCompletes (tags : List String) :
    ∀ (b : Batch) (c : BConn) (rest : List Msg),
      b.err = none → b.ctxErr = none →
      c.msgs = tags.map Msg.commandComplete ++ rest →
      closeLoop tags.length b c =
        (none, { b with resultsRead := b.resultsRead + tags.length },
          { c with msgs := rest }) := by
  induction tags with
  | nil =>
    intro b c rest herr hctx hmsgs
    simp only [List.map_nil, List.nil_append] at hmsgs
    simp only [List.length_nil, closeLoop]
    rw [← hmsgs]
    rfl
  | cons t ts ih =>
    intro b c rest herr hctx hmsgs
    have hexec : b.ExecResults c =
        (.ok t, { b with resultsRead := b.resultsRead + 1 },
          { c with msgs := ts.map Msg.commandComplete ++ rest }) := by
      simp only [Batch.ExecResults, herr, hctx, hmsgs, List.map_cons, List.cons_append, execLoop]
    simp only [List.length_cons, closeLoop, hexec]
    have hrec := ih { b with resultsRead := b.resultsRead + 1 }
      { c with msgs := ts.map Msg.commandComplete ++ rest } rest herr hctx rfl
    rw [hrec]
    have harith : b.resultsRead + 1 + ts.length = b.resultsRead + (ts.length + 1) := by omega
    simp [harith]

/-- C6: with `k` of `N` results already read, no sticky error and a live
context, `Close` force-consumes the remaining `N - k` items exactly as
repeated `ExecResults` calls would (the read cursor ends at `N`), then
drains the stream until no ReadyForQuery acknowledgement is outstanding,
returning success with the connection idle (pending count 0, stream
empty). -/
theorem C6_close_drains_remaining (b : Batch) (c : BConn) (tags : List String)
    (herr : b.err = none) (hctx : b.ctxErr = none)
    (htags : tags.length = b.items.length - b.resultsRead)
    (hmsgs : c.msgs = tags.map Msg.commandComplete ++
      [Msg.readyForQuery, Msg.commandComplete "COMMIT", Msg.readyForQuery])
    (hpend : c.pendingReadyForQueryCount = 2)
    (hk : b.resultsRead ≤ b.items.length) :
    (b.Close c).1 = none ∧
    (b.Close c).2.1.resultsRead = b.items.length ∧
    (b.Close c).2.2.msgs = [] ∧
    (b.Close c).2.2.pendingReadyForQueryCount = 0 := by
  have hloop := closeLoop_commandCompletes tags b c _ herr hctx hmsgs
  have hfuel : b.items.length - b.resultsRead = tags.length := htags.symm
  have hens : ensureReadyLoop
      [Msg.readyForQuery, Msg.commandComplete "COMMIT", Msg.readyForQuery] 2 =
      (none, [], 0) := by decide
  have hread : b.resultsRead + tags.length = b.items.length := by omega
  unfold Batch.Close
  simp only [herr, hfuel, hloop, hpend, hens, termContext, hctx, hread]
  cases hpool : b.hasConnPool <;> simp

/-- C6 witness: two queued items, one already read; Close drains the
remaining one and resynchronizes. -/
theorem C6_witness :
    (Batch.Close ⟨[⟨"a", [], [], []⟩, ⟨"b", [], [], []⟩], 1, true, none, none, true⟩
      ⟨[Msg.commandComplete "T2", Msg.readyForQuery, Msg.commandComplete "COMMIT",
        Msg.readyForQuery], 2, false, [], [], 0⟩).1 = none :=
  (C6_close_drains_remaining
    ⟨[⟨"a", [], [], []⟩, ⟨"b", [], [], []⟩], 1, true, none, none, true⟩
    ⟨[Msg.commandComplete "T2", Msg.readyForQuery, Msg.commandComplete "COMMIT",
      Msg.readyForQuery], 2, false, [], [], 0⟩
    ["T2"] rfl rfl rfl rfl rfl (by decide)).1

/-- With no sticky error and a live context, the drain loop of `Close`
never releases the connection itself and preserves the batch's sticky
error, context and pool flag. -/
theorem closeLoop_no_release (n : Nat) :
    ∀ (b : Batch) (c : BConn), b.err = none → b.ctxErr = none →
      (closeLoop n b c).2.2.releaseCount = c.releaseCount ∧
      (closeLoop n b c).2.1.ctxErr = none ∧
      (closeLoop n b c).2.1.hasConnPool = b.hasConnPool := by
  induction n with
  | zero => intro b c h1 h2; exact ⟨rfl, h2, rfl⟩
  | succ n ih =>
    intro b c h1 h2
    simp only [closeLoop, Batch.ExecResults, h1, h2]
    rcases hex : execLoop c.msgs c.pendingReadyForQueryCount with ⟨r, msgs, p⟩
    rcases r with e | t
    · exact ⟨rfl, rfl, rfl⟩
    · exact ih _ _ rfl rfl

/-- C7 corrected: when no sticky error exists and the context is live,
every exit path of `Close` — drain-loop failure, resynchronization
failure, or success — runs the deferred release exactly once; but the
sticky-error early return happens before the deferred release is
installed, so on that path `Close` does not release (the release already
happened inside `die` when the sticky error was recorded). -/
theorem C7_close_releases (b : Batch) (c : BConn)
    (herr : b.err = none) (hctx : b.ctxErr = none) (hpool : b.hasConnPool = true) :
    (b.Close c).2.2.releaseCount = c.releaseCount + 1 := by
  obtain ⟨hrel, hctx', hpool'⟩ := closeLoop_no_release (b.items.length - b.resultsRead) b c herr hctx
  unfold Batch.Close
  simp only [herr]
  rcases hcl : closeLoop (b.items.length - b.resultsRead) b c with ⟨r, b', c'⟩
  rw [hcl] at hrel hctx' hpool'
  simp only at hrel hctx' hpool'
  rcases r with _ | e
  · rcases hens : ensureReadyLoop c'.msgs c'.pendingReadyForQueryCount with ⟨r2, m2, p2⟩
    simp [hens, termContext, hctx', hpool ▸ hpool', hrel]
  · simp [termContext, hctx', hpool ▸ hpool', hrel]

/-- C7 witness: Close on a batch whose resynchronization fails still
releases the connection once. -/
theorem C7_witness :
    (Batch.Close ⟨[], 0, true, none, none, true⟩ ⟨[], 1, false, [], [], 0⟩).2.2.releaseCount =
      0 + 1 :=
  C7_close_releases ⟨[], 0, true, none, none, true⟩ ⟨[], 1, false, [], [], 0⟩ rfl rfl rfl

/-- C9 corrected: `ExecResults` performs no bounds check against the
number of queued items.  After all `N` results have been read, an
`(N+1)`-th call does not fail: it consumes the Sync acknowledgement and
returns the trailing commit's command tag, and the following `Close`
still succeeds and leaves the connection resynchronized (pending count
0). -/
theorem C9_extra_read_returns_commit (b : Batch) (c : BConn) (t : String)
    (herr : b.err = none) (hctx : b.ctxErr = none)
    (hread : b.resultsRead = b.items.length)
    (hmsgs : c.msgs = [Msg.readyForQuery, Msg.commandComplete t, Msg.readyForQuery])
    (hpend : c.pendingReadyForQueryCount = 2) :
    (b.ExecResults c).1 = .ok t ∧
    (Batch.Close (b.ExecResults c).2.1 (b.ExecResults c).2.2).1 = none ∧
    (Batch.Close (b.ExecResults c).2.1 (b.ExecResults c).2.2).2.2.pendingReadyForQueryCount
      = 0 := by
  have hexec : b.ExecResults c =
      (.ok t, { b with resultsRead := b.resultsRead + 1 },
        { c with msgs := [Msg.commandComplete t, Msg.readyForQuery].tail,
                 pendingReadyForQueryCount := c.pendingReadyForQueryCount - 1 }) := by
    simp only [Batch.ExecResults, herr, hctx, hmsgs, execLoop, List.tail_cons]
  rw [hexec]
  have hfuel : b.items.length - (b.resultsRead + 1) = 0 := by omega
  have hens : ensureReadyLoop [Msg.readyForQuery] (2 - 1) = (none, [], 0) := by decide
  unfold Batch.Close
  simp only [herr, hfuel, closeLoop, hpend, List.tail_cons, hens, termContext, hctx]
  cases hpool : b.hasConnPool <;> simp

/-- C9 witness: the corrected behaviour at a concrete one-item batch. -/
theorem C9_witness :
    (Batch.ExecResults ⟨[⟨"q", [], [], []⟩], 1, true, none, none, true⟩
      ⟨[Msg.readyForQuery, Msg.commandComplete "COMMIT", Msg.readyForQuery], 2,
        false, [], [], 0⟩).1 = .ok "COMMIT" :=
  (C9_extra_read_returns_commit ⟨[⟨"q", [], [], []⟩], 1, true, none, none, true⟩
    ⟨[Msg.readyForQuery, Msg.commandComplete "COMMIT", Msg.readyForQuery], 2,
      false, [], [], 0⟩ "COMMIT" rfl rfl rfl rfl rfl).1

end BatchTheorems
